import Mathlib

/-!
Shallow embedding of `fetch_data.py` (therealbct/yh_sp500).

Python strings are modelled as `String` (processed through their `List Char`
data), pandas frames as lists of rows, dates as `Nat` codes
`year*10000 + month*100 + day` (ordering agrees with calendar order), and
exceptions as `Except String`.  The network call `_get_text` is abstracted as
a function `respond : Nat → Response` giving the response observed on each
attempt number; sleeps are recorded as a list of exact rational durations
(the Python float arithmetic `min(5.0, 0.25 * 2**attempt)` is exact for the
attempt counts involved, so `ℚ` models it faithfully).
-/

/-- Python per-character lowercasing (`str.lower`, ASCII fragment). -/
def strLower (l : List Char) : List Char := l.map Char.toLower

/-- Is the character stripped by Python `str.strip()`. -/
def isWsChar (c : Char) : Bool := c == ' ' || c == '\t' || c == '\n' || c == '\r'

/-- Python `str.strip()`. -/
def trimChars (l : List Char) : List Char :=
  ((l.dropWhile isWsChar).reverse.dropWhile isWsChar).reverse

/-- Python `str.startswith`. -/
def startsWithChars (p l : List Char) : Bool := p.isPrefixOf l

/-- Python `pat in s` (substring containment). -/
def containsChars (pat : List Char) : List Char → Bool
  | [] => pat.isPrefixOf ([] : List Char)
  | c :: cs => pat.isPrefixOf (c :: cs) || containsChars pat cs

/-- Split a character list at every occurrence of a separator character. -/
def splitChar (sep : Char) : List Char → List (List Char)
  | [] => [[]]
  | c :: cs =>
    match splitChar sep cs with
    | [] => [[]]
    | f :: rest => if c == sep then [] :: f :: rest else (c :: f) :: rest

def allDigits (l : List Char) : Bool := !l.isEmpty && l.all Char.isDigit

def digitsToNat (l : List Char) : Nat :=
  l.foldl (fun a c => a * 10 + (c.toNat - 48)) 0

/-- Model of `pd.to_datetime(_, errors="coerce")` on the ISO strings Stooq serves:
an unparseable cell coerces to `none` (NaT), a date becomes the code
`y*10000 + m*100 + d`, whose `Nat` order is calendar order. -/
def parseDateChars (cell : List Char) : Option Nat :=
  match splitChar '-' (trimChars cell) with
  | [y, m, d] =>
    if allDigits y && allDigits m && allDigits d
        && decide (1 ≤ digitsToNat m) && decide (digitsToNat m ≤ 12)
        && decide (1 ≤ digitsToNat d) && decide (digitsToNat d ≤ 31) then
      some (digitsToNat y * 10000 + digitsToNat m * 100 + digitsToNat d)
    else none
  | _ => none

/-- pandas default NA markers relevant to a `Close` cell (`dropna`). -/
def isNullCell (cell : List Char) : Bool :=
  [([] : List Char), "NaN".data, "nan".data, "NULL".data, "null".data,
    "N/A".data, "NA".data, "n/a".data].contains cell

/-- One (date, close-cell) row of the series under construction. -/
abbrev Row := Nat × List Char

/-- The observable part of one HTTP response (`_get_text` result). -/
structure Response where
  status : Nat
  contentType : String
  text : String
deriving DecidableEq

/-- A labeled close-price series (`pd.Series` with `s.name = ticker`). -/
structure PriceSeries where
  name : String
  entries : List Row
deriving DecidableEq

/- Module-level constants of fetch_data.py. -/

def LOOKBACK_YEARS : Nat := 4

def PER_TICKER_RETRIES : Nat := 3

def SLEEP_BASE : ℚ := 1/4

def OUT_PARQUET : String := "sp500_etf.parquet"

def OUT_FAILURES : String := "sp500_etf_failures.csv"

def OUT_META : String := "sp500_etf_meta.json"

/-- The source function `normalize_symbol_for_yahoo`: `str(s).strip().replace(".", "-")`. -/
def normalize_symbol_for_yahoo (s : String) : String :=
  String.mk ((trimChars s.data).map (fun c => if c == '.' then '-' else c))

/-- The source function `to_stooq_symbol`: `f"{str(us_ticker).strip().lower()}.us"`. -/
def to_stooq_symbol (us_ticker : String) : String :=
  String.mk (strLower (trimChars us_ticker.data) ++ ".us".data)

/-- Line 85: `head = (txt[:200] or "").strip().lower()`. -/
def headOf (r : Response) : List Char :=
  strLower (trimChars (r.text.data.take 200))

def noDataChars : List Char := "no data".data

/-- Line 92: `is_htmlish` of the source. -/
def is_htmlish (head : List Char) : Bool :=
  startsWithChars "<!doctype".data head || startsWithChars "<html".data head
    || containsChars "too many requests".data head

/-- Line 93: `is_not_csv` of the source. -/
def is_not_csv (head : List Char) : Bool :=
  (!startsWithChars "date,".data head)
    && (!containsChars "date,open,high,low,close".data head)

/-- The transient-classification test of line 95:
`status in (429, 500, 502, 503, 504) or is_htmlish or is_not_csv`. -/
def transientCond (r : Response) (head : List Char) : Bool :=
  [429, 500, 502, 503, 504].contains r.status || is_htmlish head || is_not_csv head

/-- A parsed delimited table: header row and data rows. -/
structure Df where
  header : List (List Char)
  rows : List (List (List Char))
deriving DecidableEq

/-- Model of `pd.read_csv(StringIO(txt))`: lines split on newlines, blank lines
skipped (pandas `skip_blank_lines`), first line the header. -/
def read_csv (txt : String) : Df :=
  match ((splitChar '\n' txt.data).filter
      (fun l => !(trimChars l).isEmpty)).map (splitChar ',') with
  | [] => ⟨[], []⟩
  | h :: rs => ⟨h, rs⟩

/-- Stable-by-date insertion (ties keep existing elements first). -/
def insertRow (x : Row) : List Row → List Row
  | [] => [x]
  | y :: ys => if y.1 ≤ x.1 then y :: insertRow x ys else x :: y :: ys

/-- Model of `sort_index()`: sort rows ascending by date code. -/
def sortRows (l : List Row) : List Row := l.foldl (fun acc x => insertRow x acc) []

instance {ε α : Type} [DecidableEq ε] [DecidableEq α] : DecidableEq (Except ε α) :=
  fun x y =>
    match x, y with
    | .ok a, .ok b =>
      if h : a = b then isTrue (by rw [h])
      else isFalse (by intro hc; cases hc; exact h rfl)
    | .ok _, .error _ => isFalse (by intro hc; cases hc)
    | .error _, .ok _ => isFalse (by intro hc; cases hc)
    | .error e, .error f =>
      if h : e = f then isTrue (by rw [h])
      else isFalse (by intro hc; cases hc; exact h rfl)

/-- One attempt of the body of `download_stooq_close_one`'s retry loop
(lines 83–110), given the response observed on this attempt. -/
def attemptOne (ticker : String) (r : Response) : Except String PriceSeries :=
  let head := headOf r
  if startsWithChars noDataChars head then .error "no data"
  else if transientCond r head then
    .error ("transient non-csv response (status=" ++ toString r.status
      ++ ", ct=" ++ r.contentType ++ ", head=" ++ String.mk (head.take 80) ++ ")")
  else
    let df := read_csv r.text
    if df.rows.isEmpty || !(df.header.contains "Date".data)
        || !(df.header.contains "Close".data) then
      .error "empty or missing columns"
    else
      let di := (df.header.findIdx? (· == "Date".data)).getD 0
      let ci := (df.header.findIdx? (· == "Close".data)).getD 0
      let rows2 := df.rows.filterMap
        (fun row => (parseDateChars (row.getD di [])).map (fun dt => (dt, row.getD ci [])))
      let s := (sortRows rows2).filter (fun p => !isNullCell p.2)
      if s.isEmpty then .error "no close data"
      else .ok ⟨ticker, s⟩

/-- The quantity `min(5.0, SLEEP_BASE * (2 ** attempt))`, the backoff slept after a
failed attempt (line 114). -/
def backoff (attempt : Nat) : ℚ := min 5 (SLEEP_BASE * 2 ^ attempt)

/-- Python `str(last_err)` in the terminal message: `str(None) = "None"`. -/
def errStr : Option String → String
  | none => "None"
  | some e => e

/-- The error message of a failed attempt (`""` for a success). -/
def errOf : Except String PriceSeries → String
  | .error e => e
  | .ok _ => ""

/-- Outcome of one `download_stooq_close_one` invocation: the returned
series or terminal error, together with the sleeps performed in order. -/
structure FetchResult where
  result : Except String PriceSeries
  sleeps : List ℚ
deriving DecidableEq

/-- The `for attempt in range(1, PER_TICKER_RETRIES + 1)` loop of
`download_stooq_close_one` (lines 80–116): `attempt` is the current 1-based
attempt number, the `Nat` argument the number of attempts left, and the
`Option String` the `last_err` variable.  Any attempt failure is caught,
recorded in `last_err`, and followed by a backoff sleep; exhausting the
loop raises `RuntimeError(f"{ticker}: {last_err}")`. -/
def downloadLoop (ticker : String) (respond : Nat → Response) :
    Nat → Nat → Option String → FetchResult
  | _, 0, lastErr => ⟨.error (ticker ++ ": " ++ errStr lastErr), []⟩
  | attempt, r + 1, _ =>
    match attemptOne ticker (respond attempt) with
    | .ok s => ⟨.ok s, []⟩
    | .error e =>
      let rest := downloadLoop ticker respond (attempt + 1) r (some e)
      ⟨rest.result, backoff attempt :: rest.sleeps⟩

/-- The source function `download_stooq_close_one`, with the network abstracted as the
responses observed on attempts 1, 2, …, and the retry bound a parameter
(the source passes the module constant `PER_TICKER_RETRIES`). -/
def download_stooq_close_one (ticker : String) (respond : Nat → Response)
    (maxRetries : Nat) : FetchResult :=
  downloadLoop ticker respond 1 maxRetries none

/-- The per-symbol fetch as seen by the orchestrator (`PER_TICKER_RETRIES`
attempts, per-ticker response schedule). -/
def fetchOne (respond : String → Nat → Response) (t : String) :
    Except String PriceSeries :=
  (download_stooq_close_one t (respond t) PER_TICKER_RETRIES).result

/-- Python `failures[t] = str(e)` on an insertion-ordered dict:
an existing key keeps its position and gets the new value, a new key is
appended. -/
def dictInsert (m : List (String × String)) (k v : String) :
    List (String × String) :=
  if m.any (fun p => p.1 == k) then
    m.map (fun p => if p.1 == k then (k, v) else p)
  else m ++ [(k, v)]

/-- Dict lookup (`failures[t]`). -/
def lookupKey (m : List (String × String)) (k : String) : Option String :=
  (m.find? (fun p => p.1 == k)).map (fun p => p.2)

/-- The `for i, t in enumerate(tickers, 1)` loop of `download_stooq_prices`
(lines 125–137): successes are appended to `prices`, any exception is
absorbed into `failures`.  The pacing sleeps and progress prints have no
observable effect on the returned data and are not modelled. -/
def stooqLoop (respond : String → Nat → Response) :
    List PriceSeries → List (String × String) → List String →
    List PriceSeries × List (String × String)
  | ps, fs, [] => (ps, fs)
  | ps, fs, t :: ts =>
    match fetchOne respond t with
    | .ok s => stooqLoop respond (ps ++ [s]) fs ts
    | .error e => stooqLoop respond ps (dictInsert fs t e) ts

/-- Line 143: `df.loc[:, ~df.columns.duplicated()]`: drop later columns with an
already-seen name, keeping the first occurrence. -/
def dedupColsAux (seen : List String) : List PriceSeries → List PriceSeries
  | [] => []
  | s :: rest =>
    if seen.contains s.name then dedupColsAux seen rest
    else s :: dedupColsAux (s.name :: seen) rest

/-- The test `df.empty` of the merged table: the outer join of the collected series
has no rows iff every collected series is empty (in particular iff the
list is empty, since fetched series are never empty). -/
def emptyTable (data : List PriceSeries) : Bool :=
  data.all (fun s => s.entries.isEmpty)

/-- Lines 139–143: the merged frame, modelled by its column series.  When
the frame is non-empty the duplicate-named columns are dropped (first
occurrence wins); row-sorting the outer join does not change the column
contents. -/
def postProcess (prices : List PriceSeries) : List PriceSeries :=
  if emptyTable prices then prices else dedupColsAux [] prices

/-- The source function `download_stooq_prices`: the merged table (as its columns) and the
failures dict. -/
def download_stooq_prices (respond : String → Nat → Response)
    (tickers : List String) : List PriceSeries × List (String × String) :=
  (postProcess (stooqLoop respond [] [] tickers).1,
    (stooqLoop respond [] [] tickers).2)

/-- Line 169: `list(dict.fromkeys(tickers))`: stable de-duplication, first
occurrence kept. -/
def dedupFirstAux (seen : List String) : List String → List String
  | [] => []
  | x :: xs =>
    if seen.contains x then dedupFirstAux seen xs
    else x :: dedupFirstAux (x :: seen) xs

def dedupFirst (l : List String) : List String := dedupFirstAux [] l

/-- Line 177: `data.index.max()` as a date code (`0` only on an empty table, where
the source never reads it). -/
def maxDateOf (data : List PriceSeries) : Nat :=
  data.foldl (fun acc s => s.entries.foldl (fun a p => max a p.1) acc) 0

/-- The `Meta` dataclass. -/
structure Meta where
  generated_at_et : String
  lookback_years : Nat
  start : String
  end_ : String
  tickers_requested : Nat
  tickers_ok : Nat
  failures : Nat
  max_date : Nat
deriving DecidableEq

/-- The source function `fetch_and_save_data` (lines 160–200), with the ticker-list source and
the clock abstracted as parameters.  The first component is the fatal
error or the metadata of a completed run; the second lists the output
files written, in write order (parquet, then the failure log when
non-empty, then the metadata). -/
def fetch_and_save_data (respond : String → Nat → Response)
    (rawTickers : List String) (genAt startS endS : String) :
    Except String Meta × List String :=
  let tickers := dedupFirst rawTickers
  let data := (download_stooq_prices respond tickers).1
  let failures := (download_stooq_prices respond tickers).2
  if emptyTable data then (.error "No data downloaded from Stooq.", [])
  else
    (.ok ⟨genAt, LOOKBACK_YEARS, startS, endS, tickers.length, data.length,
        failures.length, maxDateOf data⟩,
      [OUT_PARQUET] ++ (if failures.isEmpty then [] else [OUT_FAILURES])
        ++ [OUT_META])

/-! ## Lemmas about one attempt -/

theorem mem_insertRow {x y : Row} {l : List Row} :
    y ∈ insertRow x l ↔ y = x ∨ y ∈ l := by
  induction l with
  | nil => simp [insertRow]
  | cons z zs ih =>
    rw [insertRow]
    split
    · simp only [List.mem_cons, ih]
      tauto
    · simp only [List.mem_cons]

theorem pairwise_insertRow {x : Row} {l : List Row}
    (h : l.Pairwise (fun a b => a.1 ≤ b.1)) :
    (insertRow x l).Pairwise (fun a b => a.1 ≤ b.1) := by
  induction l with
  | nil => simp [insertRow]
  | cons z zs ih =>
    rw [insertRow]
    rw [List.pairwise_cons] at h
    obtain ⟨hz, hzs⟩ := h
    split
    · case isTrue hle =>
      rw [List.pairwise_cons]
      refine ⟨?_, ih hzs⟩
      intro b hb
      rw [mem_insertRow] at hb
      rcases hb with rfl | hb
      · exact Nat.le_of_eq rfl |>.trans hle
      · exact hz b hb
    · case isFalse hgt =>
      rw [List.pairwise_cons]
      refine ⟨?_, List.pairwise_cons.mpr ⟨hz, hzs⟩⟩
      intro b hb
      rcases List.mem_cons.mp hb with rfl | hb
      · exact Nat.le_of_not_le hgt
      · exact (Nat.le_of_not_le hgt).trans (hz b hb)

theorem pairwise_sortRows (l : List Row) :
    (sortRows l).Pairwise (fun a b => a.1 ≤ b.1) := by
  rw [sortRows]
  suffices h : ∀ acc : List Row, acc.Pairwise (fun a b => a.1 ≤ b.1) →
      (l.foldl (fun acc x => insertRow x acc) acc).Pairwise (fun a b => a.1 ≤ b.1) by
    exact h [] (by simp)
  induction l with
  | nil => intro acc hacc; simpa using hacc
  | cons z zs ih =>
    intro acc hacc
    exact ih (insertRow z acc) (pairwise_insertRow hacc)

/-- What a successful attempt guarantees: the series is labeled with the
ticker, non-empty, sorted (non-strictly) by date, and free of null closes. -/
theorem attemptOne_ok_spec {ticker : String} {r : Response} {s : PriceSeries}
    (h : attemptOne ticker r = .ok s) :
    s.name = ticker ∧ s.entries ≠ [] ∧
      s.entries.Pairwise (fun a b => a.1 ≤ b.1) ∧
      ∀ p ∈ s.entries, isNullCell p.2 = false := by
  simp only [attemptOne] at h
  split at h
  · exact absurd h (by simp)
  · split at h
    · exact absurd h (by simp)
    · split at h
      · exact absurd h (by simp)
      · split at h
        · exact absurd h (by simp)
        · case isFalse hne =>
          obtain rfl : PriceSeries.mk ticker _ = s := by
            injection h
          refine ⟨rfl, ?_, ?_, ?_⟩
          · intro hnil
            rw [← List.isEmpty_iff] at hnil
            exact hne hnil
          · exact List.Pairwise.filter _ (pairwise_sortRows _)
          · intro p hp
            have := (List.mem_filter.mp hp).2
            simpa using this

/-- A "no data" body makes the attempt raise the permanent-failure
exception (line 89). -/
theorem attemptOne_noData {ticker : String} {r : Response}
    (h : startsWithChars noDataChars (headOf r) = true) :
    attemptOne ticker r = .error "no data" := by
  rw [attemptOne]
  simp [h]

/-! ## Lemmas about the retry loop -/

/-- Whatever happens, the sleeps performed are exactly the backoffs of the
consecutive failed attempts starting at the loop's first attempt number. -/
theorem downloadLoop_sleeps_shape (ticker : String) (respond : Nat → Response) :
    ∀ (r a : Nat) (lastErr : Option String), ∃ f, f ≤ r ∧
      (downloadLoop ticker respond a r lastErr).sleeps
        = (List.range' a f).map backoff := by
  intro r
  induction r with
  | zero =>
    intro a lastErr
    exact ⟨0, Nat.le_refl 0, by simp [downloadLoop]⟩
  | succ rr ih =>
    intro a lastErr
    rw [downloadLoop]
    cases hA : attemptOne ticker (respond a) with
    | ok s => exact ⟨0, Nat.zero_le _, by simp⟩
    | error e =>
      obtain ⟨f, hf, hs⟩ := ih (a + 1) (some e)
      refine ⟨f + 1, Nat.succ_le_succ hf, ?_⟩
      simp only [List.range'_succ, List.map_cons]
      simpa using hs

/-- If every attempt in the window fails, every backoff is slept. -/
theorem downloadLoop_allFail_sleeps (ticker : String) (respond : Nat → Response) :
    ∀ (r a : Nat) (lastErr : Option String),
      (∀ k, a ≤ k → k < a + r → (attemptOne ticker (respond k)).isOk = false) →
      (downloadLoop ticker respond a r lastErr).sleeps
        = (List.range' a r).map backoff := by
  intro r
  induction r with
  | zero => intro a lastErr _; simp [downloadLoop]
  | succ rr ih =>
    intro a lastErr hall
    rw [downloadLoop]
    cases hA : attemptOne ticker (respond a) with
    | ok s =>
      have := hall a (Nat.le_refl a) (by omega)
      rw [hA] at this
      simp [Except.isOk, Except.toBool] at this
    | error e =>
      have hrest := ih (a + 1) (some e) (fun k hk1 hk2 => hall k (by omega) (by omega))
      simp only [List.range'_succ, List.map_cons]
      simpa using hrest

/-- If every attempt in the window fails, the loop's outcome is the
terminal error built from the last attempt's failure reason. -/
theorem downloadLoop_allFail_result (ticker : String) (respond : Nat → Response) :
    ∀ (r a : Nat) (lastErr : Option String), 1 ≤ r →
      (∀ k, a ≤ k → k < a + r → (attemptOne ticker (respond k)).isOk = false) →
      (downloadLoop ticker respond a r lastErr).result
        = .error (ticker ++ ": " ++ errOf (attemptOne ticker (respond (a + r - 1)))) := by
  intro r
  induction r with
  | zero => intro a lastErr h1; omega
  | succ rr ih =>
    intro a lastErr _ hall
    rw [downloadLoop]
    cases hA : attemptOne ticker (respond a) with
    | ok s =>
      have := hall a (Nat.le_refl a) (by omega)
      rw [hA] at this
      simp [Except.isOk, Except.toBool] at this
    | error e =>
      cases rr with
      | zero =>
        simp only [downloadLoop]
        have : a + 1 - 1 = a := by omega
        rw [this, hA]
        rfl
      | succ rrr =>
        have hrest := ih (a + 1) (some e) (by omega)
          (fun k hk1 hk2 => hall k (by omega) (by omega))
        simp only []
        rw [hrest]
        have : a + 1 + (rrr + 1) - 1 = a + (rrr + 1 + 1) - 1 := by omega
        rw [this]

/-- If every attempt in the window fails, no series is returned. -/
theorem downloadLoop_allFail_notOk (ticker : String) (respond : Nat → Response) :
    ∀ (r a : Nat) (lastErr : Option String),
      (∀ k, a ≤ k → k < a + r → (attemptOne ticker (respond k)).isOk = false) →
      (downloadLoop ticker respond a r lastErr).result.isOk = false := by
  intro r
  cases r with
  | zero => intro a lastErr _; simp [downloadLoop, Except.isOk, Except.toBool]
  | succ rr =>
    intro a lastErr hall
    rw [downloadLoop_allFail_result ticker respond (rr + 1) a lastErr (by omega) hall]
    simp [Except.isOk, Except.toBool]

/-- A series returned by the loop comes from a successful attempt, hence
satisfies the attempt-level guarantees. -/
theorem downloadLoop_ok_spec (ticker : String) (respond : Nat → Response) :
    ∀ (r a : Nat) (lastErr : Option String) (s : PriceSeries),
      (downloadLoop ticker respond a r lastErr).result = .ok s →
      s.name = ticker ∧ s.entries ≠ [] ∧
        s.entries.Pairwise (fun a b => a.1 ≤ b.1) ∧
        ∀ p ∈ s.entries, isNullCell p.2 = false := by
  intro r
  induction r with
  | zero => intro a lastErr s h; exact absurd h (by simp [downloadLoop])
  | succ rr ih =>
    intro a lastErr s h
    rw [downloadLoop] at h
    revert h
    cases hA : attemptOne ticker (respond a) with
    | ok s' =>
      intro h
      obtain rfl : s' = s := by injection h
      exact attemptOne_ok_spec hA
    | error e =>
      intro h
      exact ih (a + 1) (some e) s h

/-- The `download_stooq_close_one` success guarantees, at the function's
boundary. -/
theorem download_ok_spec {ticker : String} {respond : Nat → Response}
    {maxRetries : Nat} {s : PriceSeries}
    (h : (download_stooq_close_one ticker respond maxRetries).result = .ok s) :
    s.name = ticker ∧ s.entries ≠ [] ∧
      s.entries.Pairwise (fun a b => a.1 ≤ b.1) ∧
      ∀ p ∈ s.entries, isNullCell p.2 = false :=
  downloadLoop_ok_spec ticker respond maxRetries 1 none s h

/-! ## Lemmas about the batch orchestrator -/

/-- The collected series are exactly the successful fetches, in order. -/
theorem stooqLoop_fst (respond : String → Nat → Response) :
    ∀ (ts : List String) (ps : List PriceSeries) (fs : List (String × String)),
      (stooqLoop respond ps fs ts).1
        = ps ++ ts.filterMap (fun t => (fetchOne respond t).toOption) := by
  intro ts
  induction ts with
  | nil => intro ps fs; simp [stooqLoop]
  | cons t ts ih =>
    intro ps fs
    rw [stooqLoop]
    cases hF : fetchOne respond t with
    | ok s => rw [ih]; simp [Except.toOption, hF]
    | error e => rw [ih]; simp [Except.toOption, hF]

theorem lookupKey_dictInsert_self (m : List (String × String)) (k v : String) :
    lookupKey (dictInsert m k v) k = some v := by
  rw [dictInsert]
  split
  · case isTrue hany =>
    rw [List.any_eq_true] at hany
    obtain ⟨p, hp, hpk⟩ := hany
    rw [lookupKey]
    induction m with
    | nil => cases hp
    | cons q qs ih =>
      rcases List.mem_cons.mp hp with rfl | hq
      · simp only [List.map_cons, hpk, if_pos]
        rw [List.find?_cons_of_pos _ (by simp)]
        rfl
      · by_cases hqk : (q.1 == k) = true
        · simp only [List.map_cons, hqk, if_pos]
          rw [List.find?_cons_of_pos _ (by simp)]
          rfl
        · simp only [List.map_cons, hqk]
          rw [if_neg (by simpa using hqk), List.find?_cons_of_neg _ (by simpa using hqk)]
          exact ih hq
  · case isFalse hany =>
    rw [lookupKey]
    have hnone : List.find? (fun p => p.1 == k) m = none := by
      rw [List.find?_eq_none]
      intro p hp hpk
      exact hany (List.any_eq_true.mpr ⟨p, hp, hpk⟩)
    rw [List.find?_append, hnone]
    simp [List.find?]

theorem lookupKey_dictInsert_other (m : List (String × String)) (k v k' : String)
    (h : k' ≠ k) :
    lookupKey (dictInsert m k v) k' = lookupKey m k' := by
  rw [dictInsert]
  split
  · case isTrue hany =>
    clear hany
    rw [lookupKey, lookupKey]
    induction m with
    | nil => simp
    | cons q qs ih =>
      by_cases hqk : (q.1 == k) = true
      · have hq1 : q.1 = k := by simpa using hqk
        simp only [List.map_cons, hqk, if_pos]
        rw [List.find?_cons_of_neg _ (by simpa using Ne.symm h),
          List.find?_cons_of_neg _ (by rw [hq1]; simpa using Ne.symm h)]
        exact ih
      · simp only [List.map_cons, hqk]
        rw [if_neg (by simpa using hqk)]
        by_cases hqk' : (q.1 == k') = true
        · rw [List.find?_cons_of_pos _ (by simpa using hqk'),
            List.find?_cons_of_pos _ (by simpa using hqk')]
        · rw [List.find?_cons_of_neg _ (by simpa using hqk'),
            List.find?_cons_of_neg _ (by simpa using hqk')]
          exact ih
  · rw [lookupKey, lookupKey, List.find?_append]
    cases hf : List.find? (fun p => p.1 == k') m with
    | some p => rfl
    | none =>
      simp only [Option.none_or]
      rw [List.find?_cons_of_neg _ (by simpa using Ne.symm h)]
      rfl

/-- A symbol that fails its fetch ends up in the failures dict with the
error's message, regardless of where it sits in the list. -/
theorem stooqLoop_failure_lookup (respond : String → Nat → Response)
    {t e : String} (he : fetchOne respond t = .error e) :
    ∀ (ts : List String) (ps : List PriceSeries) (fs : List (String × String)),
      (t ∈ ts ∨ lookupKey fs t = some e) →
      lookupKey (stooqLoop respond ps fs ts).2 t = some e := by
  intro ts
  induction ts with
  | nil =>
    intro ps fs h
    rcases h with h | h
    · cases h
    · simpa [stooqLoop] using h
  | cons t' ts ih =>
    intro ps fs h
    rw [stooqLoop]
    cases hF : fetchOne respond t' with
    | ok s =>
      refine ih (ps ++ [s]) fs ?_
      rcases h with h | h
      · rcases List.mem_cons.mp h with rfl | hmem
        · rw [he] at hF; cases hF
        · exact Or.inl hmem
      · exact Or.inr h
    | error e' =>
      by_cases htt : t' = t
      · subst htt
        rw [he] at hF
        obtain rfl : e = e' := by injection hF
        exact ih ps _ (Or.inr (lookupKey_dictInsert_self fs t' e))
      · refine ih ps _ ?_
        rcases h with h | h
        · rcases List.mem_cons.mp h with rfl | hmem
          · exact absurd rfl htt
          · exact Or.inl hmem
        · exact Or.inr (by rw [lookupKey_dictInsert_other fs t' e' t (Ne.symm htt)]; exact h)

/-- A successful per-symbol fetch carries the symbol as its series name,
with a non-empty entry list. -/
theorem fetchOne_ok_spec {respond : String → Nat → Response} {t : String}
    {s : PriceSeries} (h : fetchOne respond t = .ok s) :
    s.name = t ∧ s.entries ≠ [] :=
  ⟨(download_ok_spec h).1, (download_ok_spec h).2.1⟩

/-- The names of the successful series are the successfully fetched
symbols, in input order. -/
theorem successNames (respond : String → Nat → Response) (ts : List String) :
    (ts.filterMap (fun t => (fetchOne respond t).toOption)).map
        (fun s => s.name)
      = ts.filter (fun t => (fetchOne respond t).isOk) := by
  induction ts with
  | nil => simp
  | cons t ts ih =>
    cases hF : fetchOne respond t with
    | ok s =>
      have h1 : (fetchOne respond t).toOption = some s := by rw [hF]; rfl
      have h2 : (fetchOne respond t).isOk = true := by rw [hF]; rfl
      rw [List.filterMap_cons, h1, List.filter_cons, h2, if_pos rfl,
        List.map_cons, ih, (fetchOne_ok_spec hF).1]
    | error e =>
      have h1 : (fetchOne respond t).toOption = none := by rw [hF]; rfl
      have h2 : (fetchOne respond t).isOk = false := by rw [hF]; rfl
      rw [List.filterMap_cons, h1, List.filter_cons, h2]
      simp only [Bool.false_eq_true, if_false]
      exact ih

/-- With pairwise-fresh symbols, the failures dict is the list of
per-symbol terminal failures in input order. -/
theorem stooqLoop_snd_nodup (respond : String → Nat → Response) :
    ∀ (ts : List String) (ps : List PriceSeries) (fs : List (String × String)),
      ts.Nodup → (∀ p ∈ fs, p.1 ∉ ts) →
      (stooqLoop respond ps fs ts).2
        = fs ++ ts.filterMap (fun t =>
            match fetchOne respond t with
            | .ok _ => none
            | .error e => some (t, e)) := by
  intro ts
  induction ts with
  | nil => intro ps fs _ _; simp [stooqLoop]
  | cons t ts ih =>
    intro ps fs hnd hfresh
    rw [stooqLoop, List.filterMap_cons]
    rw [List.nodup_cons] at hnd
    cases hF : fetchOne respond t with
    | ok s =>
      rw [ih (ps ++ [s]) fs hnd.2 (fun p hp => fun hmem => hfresh p hp (List.mem_cons_of_mem _ hmem))]
    | error e =>
      have hdi : dictInsert fs t e = fs ++ [(t, e)] := by
        rw [dictInsert, if_neg]
        intro hany
        rw [List.any_eq_true] at hany
        obtain ⟨p, hp, hpt⟩ := hany
        have hp1 : p.1 = t := by simpa using hpt
        exact hfresh p hp (by rw [hp1]; exact List.mem_cons_self t ts)
      rw [ih ps (dictInsert fs t e) hnd.2 ?_, hdi, List.append_assoc]
      · rfl
      · intro p hp hmem
        rw [hdi] at hp
        rcases List.mem_append.mp hp with hp | hp
        · exact hfresh p hp (List.mem_cons_of_mem _ hmem)
        · rcases List.mem_singleton.mp hp with rfl
          exact hnd.1 hmem

/-- The failure-dict entries of a pairwise-fresh run, keyed view: the keys
are the symbols whose fetch failed, in input order. -/
theorem failureKeys (respond : String → Nat → Response) (ts : List String) :
    (ts.filterMap (fun t =>
        match fetchOne respond t with
        | .ok _ => none
        | .error e => some (t, e))).map (fun p => p.1)
      = ts.filter (fun t => !(fetchOne respond t).isOk) := by
  induction ts with
  | nil => simp
  | cons t ts ih =>
    cases hF : fetchOne respond t with
    | ok s =>
      have h1 : (match fetchOne respond t with
          | .ok _ => (none : Option (String × String))
          | .error e => some (t, e)) = none := by rw [hF]
      have h2 : (!(fetchOne respond t).isOk) = false := by rw [hF]; rfl
      rw [List.filterMap_cons, h1, List.filter_cons, h2]
      simp only [Bool.false_eq_true, if_false]
      exact ih
    | error e =>
      have h1 : (match fetchOne respond t with
          | .ok _ => (none : Option (String × String))
          | .error e => some (t, e)) = some (t, e) := by rw [hF]
      have h2 : (!(fetchOne respond t).isOk) = true := by rw [hF]; rfl
      rw [List.filterMap_cons, h1, List.filter_cons, h2, if_pos rfl,
        List.map_cons, ih]

theorem length_filter_partition {α : Type} (p : α → Bool) (l : List α) :
    (l.filter p).length + (l.filter (fun a => !p a)).length = l.length := by
  induction l with
  | nil => rfl
  | cons x xs ih =>
    rw [List.filter_cons, List.filter_cons]
    cases hx : p x <;> simp only [Bool.not_true, Bool.not_false] <;>
      simp [List.length_cons, ← ih] <;> omega

/-- Dropping duplicate-named columns is the identity when the names are
fresh and pairwise distinct. -/
theorem dedupColsAux_eq_self :
    ∀ (l : List PriceSeries) (seen : List String),
      (∀ s ∈ l, seen.contains s.name = false) →
      (l.map (fun s => s.name)).Nodup →
      dedupColsAux seen l = l := by
  intro l
  induction l with
  | nil => intro seen _ _; rfl
  | cons s rest ih =>
    intro seen hfresh hnd
    rw [dedupColsAux, hfresh s (List.mem_cons_self s rest)]
    simp only [Bool.false_eq_true, if_false]
    rw [List.map_cons, List.nodup_cons] at hnd
    rw [ih (s.name :: seen) ?_ hnd.2]
    intro s' hs'
    rw [List.contains_cons]
    have h1 : (s'.name == s.name) = false := by
      simp only [beq_eq_false_iff_ne, ne_eq]
      intro hname
      exact hnd.1 (hname ▸ List.mem_map_of_mem (fun s => s.name) hs')
    rw [h1, hfresh s' (List.mem_cons_of_mem _ hs')]
    rfl

/-- Stable de-duplication is the identity on an already-Nodup list. -/
theorem dedupFirstAux_eq_self :
    ∀ (l : List String) (seen : List String),
      (∀ x ∈ l, seen.contains x = false) → l.Nodup →
      dedupFirstAux seen l = l := by
  intro l
  induction l with
  | nil => intro seen _ _; rfl
  | cons x xs ih =>
    intro seen hfresh hnd
    rw [dedupFirstAux, hfresh x (List.mem_cons_self x xs)]
    simp only [Bool.false_eq_true, if_false]
    rw [List.nodup_cons] at hnd
    rw [ih (x :: seen) ?_ hnd.2]
    intro y hy
    rw [List.contains_cons]
    have h1 : (y == x) = false := by
      simp only [beq_eq_false_iff_ne, ne_eq]
      intro hyx
      exact hnd.1 (hyx ▸ hy)
    rw [h1, hfresh y (List.mem_cons_of_mem _ hy)]
    rfl

theorem dedupFirst_eq_self {l : List String} (h : l.Nodup) : dedupFirst l = l :=
  dedupFirstAux_eq_self l [] (fun x _ => rfl) h

/-- Column dedup never loses a name. -/
theorem dedupColsAux_names_mem :
    ∀ (l : List PriceSeries) (seen : List String) (x : String),
      seen.contains x = false → x ∈ l.map (fun s => s.name) →
      x ∈ (dedupColsAux seen l).map (fun s => s.name) := by
  intro l
  induction l with
  | nil => intro seen x _ hx; cases hx
  | cons s rest ih =>
    intro seen x hseen hx
    rw [List.map_cons] at hx
    rw [dedupColsAux]
    by_cases hc : seen.contains s.name = true
    · rw [if_pos hc]
      rcases List.mem_cons.mp hx with heq | hx
      · rw [heq] at hseen
        rw [hseen] at hc
        cases hc
      · exact ih seen x hseen hx
    · rw [if_neg hc]
      rw [List.map_cons]
      by_cases hxs : x = s.name
      · rw [hxs]
        exact List.mem_cons_self _ _
      · have hx' : x ∈ rest.map (fun s => s.name) := by
          rcases List.mem_cons.mp hx with heq | hmem
          · exact absurd heq hxs
          · exact hmem
        refine List.mem_cons_of_mem _ (ih (s.name :: seen) x ?_ hx')
        rw [List.contains_cons]
        simp only [Bool.or_eq_false_iff]
        exact ⟨by simpa using hxs, hseen⟩

/-- Membership of a name in the merged table's columns survives
post-processing. -/
theorem mem_names_postProcess {ps : List PriceSeries} {x : String}
    (hx : x ∈ ps.map (fun s => s.name)) :
    x ∈ (postProcess ps).map (fun s => s.name) := by
  rw [postProcess]
  split
  · exact hx
  · exact dedupColsAux_names_mem ps [] x rfl hx

/-- When all collected series are non-empty (as fetched series are), the
merged table is empty exactly when nothing was collected. -/
theorem emptyTable_postProcess_iff {ps : List PriceSeries}
    (hne : ∀ s ∈ ps, s.entries ≠ []) :
    (emptyTable (postProcess ps) = true ↔ ps = []) := by
  cases ps with
  | nil => simp [postProcess, emptyTable, dedupColsAux]
  | cons s rest =>
    have hs : s.entries ≠ [] := hne s (List.mem_cons_self s rest)
    have hsE : s.entries.isEmpty = false := by
      cases hE : s.entries.isEmpty
      · rfl
      · exact absurd (List.isEmpty_iff.mp hE) hs
    have hT : emptyTable (s :: rest) = false := by
      rw [emptyTable, List.all_cons, hsE]
      rfl
    rw [postProcess, hT]
    simp only [Bool.false_eq_true, if_false]
    constructor
    · intro hempty
      exfalso
      rw [dedupColsAux] at hempty
      rw [show (([] : List String).contains s.name) = false from rfl] at hempty
      simp only [Bool.false_eq_true, if_false] at hempty
      rw [emptyTable, List.all_cons, hsE] at hempty
      exact absurd hempty (by simp)
    · intro h; cases h

/-! ## The transient-classification equivalence (claim C4) -/

def transientMsgHead : List Char := "transient non-csv response".data

/-- Did the attempt fail with the classification-stage transient error of
line 96 (as opposed to a later parse/empty failure or the "no data"
branch)?  The messages of the other raises never carry this prefix. -/
def isClassificationError (x : Except String PriceSeries) : Bool :=
  match x with
  | .error m => startsWithChars transientMsgHead m.data
  | .ok _ => false

theorem startsWithChars_append (p rest : List Char) :
    startsWithChars p (p ++ rest) = true := by
  rw [startsWithChars, List.isPrefixOf_iff_prefix]
  exact ⟨rest, rfl⟩

theorem startsWithChars_trans_append {p q : List Char} (rest : List Char)
    (h : startsWithChars p q = true) :
    startsWithChars p (q ++ rest) = true := by
  rw [startsWithChars, List.isPrefixOf_iff_prefix] at h ⊢
  exact h.trans (List.prefix_append q rest)

/-- A string prefix survives appending more text on the right. -/
theorem startsWith_String_append {p : List Char} (s t : String)
    (h : startsWithChars p s.data = true) :
    startsWithChars p (s ++ t).data = true := by
  cases s with
  | mk ls =>
    cases t with
    | mk lt =>
      show startsWithChars p (ls ++ lt) = true
      exact startsWithChars_trans_append lt h

/-- For a body that is not a "no data" body, the classification-stage
transient error is raised exactly under the source's line-95 condition. -/
theorem attemptOne_classification {ticker : String} {r : Response}
    (h : startsWithChars noDataChars (headOf r) = false) :
    isClassificationError (attemptOne ticker r) = transientCond r (headOf r) := by
  simp only [attemptOne, h]
  simp only [Bool.false_eq_true, if_false]
  cases hT : transientCond r (headOf r) with
  | true =>
    rw [if_pos rfl]
    simp only [isClassificationError]
    apply startsWith_String_append
    apply startsWith_String_append
    apply startsWith_String_append
    apply startsWith_String_append
    apply startsWith_String_append
    apply startsWith_String_append
    decide
  | false =>
    simp only [Bool.false_eq_true, if_false]
    split
    · decide
    · split
      · decide
      · rfl

theorem except_toOption_eq_some {x : Except String PriceSeries} {s : PriceSeries} :
    x.toOption = some s ↔ x = .ok s := by
  cases x <;> simp [Except.toOption]

theorem except_toOption_eq_none {x : Except String PriceSeries} :
    x.toOption = none ↔ x.isOk = false := by
  cases x <;> simp [Except.toOption, Except.isOk, Except.toBool]

/-- The merged table of a batch is empty exactly when no requested symbol
was fetched successfully. -/
theorem download_prices_empty_iff (respond : String → Nat → Response)
    (ts : List String) :
    emptyTable (download_stooq_prices respond ts).1 = true ↔
      ∀ t ∈ ts, (fetchOne respond t).isOk = false := by
  have hfst : (download_stooq_prices respond ts).1
      = postProcess (ts.filterMap (fun t => (fetchOne respond t).toOption)) := by
    rw [download_stooq_prices]
    rw [stooqLoop_fst respond ts [] []]
    rfl
  rw [hfst]
  have hne : ∀ s ∈ ts.filterMap (fun t => (fetchOne respond t).toOption),
      s.entries ≠ [] := by
    intro s hs
    obtain ⟨t, _, hts⟩ := List.mem_filterMap.mp hs
    exact (fetchOne_ok_spec (except_toOption_eq_some.mp hts)).2
  rw [emptyTable_postProcess_iff hne, List.filterMap_eq_nil_iff]
  constructor
  · intro h t ht
    exact except_toOption_eq_none.mp (h t ht)
  · intro h t ht
    exact except_toOption_eq_none.mpr (h t ht)

/-- Post-processing is the identity when the column names are already
distinct. -/
theorem postProcess_eq_self {ps : List PriceSeries}
    (h : (ps.map (fun s => s.name)).Nodup) : postProcess ps = ps := by
  rw [postProcess]
  split
  · rfl
  · exact dedupColsAux_eq_self ps [] (fun s _ => rfl) h

/-! ## Concrete fixtures used by the witnesses and counterexamples -/

/-- A permanent-failure response: Stooq's "No data" body. -/
def respNoData : Response := ⟨200, "", "No data"⟩

/-- A well-formed two-row CSV response. -/
def respGood : Response :=
  ⟨200, "", "Date,Open,High,Low,Close\n2020-01-02,1,1,1,10\n2020-01-03,1,1,1,11\n"⟩

/-- A well-formed CSV response whose two rows carry the same date. -/
def rdup : Response :=
  ⟨200, "", "Date,Open,High,Low,Close\n2020-01-02,1,1,1,10\n2020-01-02,1,1,1,11\n"⟩

/-- A syntactically valid CSV response with a header but no data rows. -/
def rEmptyCsv : Response := ⟨200, "", "Date,Open,High,Low,Close\n"⟩

/-- The series `download_stooq_close_one` produces from `respGood`. -/
def sGood : PriceSeries := ⟨"X", [(20200102, "10".data), (20200103, "11".data)]⟩

/-- Per-ticker response schedule: "A" gets good data, anything else gets
"No data". -/
def respondMixed (t : String) : Nat → Response :=
  if t = "A" then (fun _ => respGood) else (fun _ => respNoData)

/-- Adjacent strict increase of the date key (hence duplicate-freedom). -/
def strictlyIncB : List Row → Bool
  | [] => true
  | [_] => true
  | a :: b :: rest => decide (a.1 < b.1) && strictlyIncB (b :: rest)

/-- Project the series out of a fetch outcome (`⟨"", []⟩` on errors). -/
def getSeries : Except String PriceSeries → PriceSeries
  | .ok s => s
  | .error _ => ⟨"", []⟩

/-! ## The claims -/

/-- C1: when every response is a "no data" body, the permanent-failure
exception is caught by the same retry loop as a transient failure: all
`maxRetries` attempts are made (one backoff slept per attempt, none
skipped), no short-circuit happens, and only then the terminal error (with
the generic "no data" reason) is raised. -/
theorem spec_C1 (ticker : String) (respond : Nat → Response) (n : Nat)
    (h : ∀ k, startsWithChars noDataChars (headOf (respond k)) = true) :
    (download_stooq_close_one ticker respond n).result.isOk = false ∧
    (download_stooq_close_one ticker respond n).sleeps.length = n ∧
    (1 ≤ n → (download_stooq_close_one ticker respond n).result
        = .error (ticker ++ ": " ++ "no data")) := by
  have hfail : ∀ k, 1 ≤ k → k < 1 + n → (attemptOne ticker (respond k)).isOk = false := by
    intro k _ _
    rw [attemptOne_noData (h k)]
    rfl
  refine ⟨?_, ?_, ?_⟩
  · rw [download_stooq_close_one]
    exact downloadLoop_allFail_notOk ticker respond n 1 none hfail
  · rw [download_stooq_close_one,
      downloadLoop_allFail_sleeps ticker respond n 1 none hfail]
    simp
  · intro hn
    rw [download_stooq_close_one,
      downloadLoop_allFail_result ticker respond n 1 none hn hfail]
    rw [show 1 + n - 1 = n from by omega, attemptOne_noData (h n)]
    rfl

theorem spec_C1_witness :
    (∀ k : Nat, startsWithChars noDataChars
        (headOf ((fun _ => respNoData) k)) = true) ∧
    ((download_stooq_close_one "T" (fun _ => respNoData)
        PER_TICKER_RETRIES).result.isOk = false ∧
      (download_stooq_close_one "T" (fun _ => respNoData)
        PER_TICKER_RETRIES).sleeps.length = PER_TICKER_RETRIES ∧
      (1 ≤ PER_TICKER_RETRIES →
        (download_stooq_close_one "T" (fun _ => respNoData)
          PER_TICKER_RETRIES).result = .error ("T" ++ ": " ++ "no data"))) :=
  ⟨fun _ => (by decide : startsWithChars noDataChars (headOf respNoData) = true),
    spec_C1 "T" (fun _ => respNoData) PER_TICKER_RETRIES
      (fun _ => (by decide : startsWithChars noDataChars (headOf respNoData) = true))⟩

/-- C7: when all `maxRetries` attempts fail, the fetcher raises a single
terminal error whose message embeds the symbol and the last observed
failure reason, and returns no series. -/
theorem spec_C7 (ticker : String) (respond : Nat → Response) (n : Nat)
    (hn : 1 ≤ n)
    (h : ∀ k, 1 ≤ k → k ≤ n → (attemptOne ticker (respond k)).isOk = false) :
    (download_stooq_close_one ticker respond n).result
        = .error (ticker ++ ": " ++ errOf (attemptOne ticker (respond n))) ∧
    (download_stooq_close_one ticker respond n).result.isOk = false := by
  have hfail : ∀ k, 1 ≤ k → k < 1 + n → (attemptOne ticker (respond k)).isOk = false :=
    fun k hk1 hk2 => h k hk1 (by omega)
  constructor
  · rw [download_stooq_close_one,
      downloadLoop_allFail_result ticker respond n 1 none hn hfail,
      show 1 + n - 1 = n from by omega]
  · rw [download_stooq_close_one]
    exact downloadLoop_allFail_notOk ticker respond n 1 none hfail

theorem spec_C7_witness :
    1 ≤ PER_TICKER_RETRIES ∧
    (∀ k : Nat, 1 ≤ k → k ≤ PER_TICKER_RETRIES →
      (attemptOne "T" ((fun _ => respNoData) k)).isOk = false) ∧
    ((download_stooq_close_one "T" (fun _ => respNoData)
        PER_TICKER_RETRIES).result
      = .error ("T" ++ ": " ++ errOf (attemptOne "T" ((fun _ => respNoData)
          PER_TICKER_RETRIES))) ∧
     (download_stooq_close_one "T" (fun _ => respNoData)
        PER_TICKER_RETRIES).result.isOk = false) :=
  ⟨by decide,
    fun _ _ _ => (by decide : (attemptOne "T" respNoData).isOk = false),
    spec_C7 "T" (fun _ => respNoData) PER_TICKER_RETRIES (by decide)
      (fun _ _ _ => (by decide : (attemptOne "T" respNoData).isOk = false))⟩

/-- C10: when the fetcher exhausts all retries, the backoff sleep is also
performed after the final failed attempt: exactly `maxRetries` sleeps
happen, the last being the backoff for attempt number `maxRetries`, and it
precedes no further attempt — only the terminal failure follows. -/
theorem spec_C10 (ticker : String) (respond : Nat → Response) (n : Nat)
    (h : ∀ k, 1 ≤ k → k ≤ n → (attemptOne ticker (respond k)).isOk = false) :
    (download_stooq_close_one ticker respond n).sleeps.length = n ∧
    (download_stooq_close_one ticker respond n).result.isOk = false ∧
    (1 ≤ n → (download_stooq_close_one ticker respond n).sleeps.getLast?
        = some (backoff n)) := by
  have hfail : ∀ k, 1 ≤ k → k < 1 + n → (attemptOne ticker (respond k)).isOk = false :=
    fun k hk1 hk2 => h k hk1 (by omega)
  have hsleeps := downloadLoop_allFail_sleeps ticker respond n 1 none hfail
  refine ⟨?_, ?_, ?_⟩
  · rw [download_stooq_close_one, hsleeps]
    simp
  · rw [download_stooq_close_one]
    exact downloadLoop_allFail_notOk ticker respond n 1 none hfail
  · intro hn
    rw [download_stooq_close_one, hsleeps]
    obtain ⟨m, rfl⟩ : ∃ m, n = m + 1 := ⟨n - 1, by omega⟩
    rw [List.range'_1_concat, List.map_append, List.getLast?_append]
    simp [show 1 + m = m + 1 from by omega]

theorem spec_C10_witness :
    (∀ k : Nat, 1 ≤ k → k ≤ PER_TICKER_RETRIES →
      (attemptOne "T" ((fun _ => respNoData) k)).isOk = false) ∧
    ((download_stooq_close_one "T" (fun _ => respNoData)
        PER_TICKER_RETRIES).sleeps.length = PER_TICKER_RETRIES ∧
     (download_stooq_close_one "T" (fun _ => respNoData)
        PER_TICKER_RETRIES).result.isOk = false ∧
     (1 ≤ PER_TICKER_RETRIES →
       (download_stooq_close_one "T" (fun _ => respNoData)
          PER_TICKER_RETRIES).sleeps.getLast?
         = some (backoff PER_TICKER_RETRIES))) :=
  ⟨fun _ _ _ => (by decide : (attemptOne "T" respNoData).isOk = false),
    spec_C10 "T" (fun _ => respNoData) PER_TICKER_RETRIES
      (fun _ _ _ => (by decide : (attemptOne "T" respNoData).isOk = false))⟩

/-- C8: the sleep after the `i+1`-st failed attempt (the `i`-th sleep,
0-based) is exactly `min(5.0, SLEEP_BASE * 2 ^ (i+1))` time units. -/
theorem spec_C8 (ticker : String) (respond : Nat → Response) (n i : Nat)
    (hi : i < (download_stooq_close_one ticker respond n).sleeps.length) :
    (download_stooq_close_one ticker respond n).sleeps[i]
      = min 5 (SLEEP_BASE * 2 ^ (i + 1)) := by
  obtain ⟨f, hf, hs⟩ := downloadLoop_sleeps_shape ticker respond n 1 none
  have hs2 : (download_stooq_close_one ticker respond n).sleeps
      = (List.range' 1 f).map backoff := hs
  rw [List.getElem_of_eq hs2]
  rw [List.getElem_map, List.getElem_range'_1, backoff, Nat.add_comm 1 i]

theorem spec_C8_witness :
    1 < (download_stooq_close_one "T" (fun _ => respNoData)
        PER_TICKER_RETRIES).sleeps.length ∧
    (download_stooq_close_one "T" (fun _ => respNoData)
        PER_TICKER_RETRIES).sleeps.getD 1 0
      = min 5 (SLEEP_BASE * 2 ^ (1 + 1)) := by
  have h : 1 < (download_stooq_close_one "T" (fun _ => respNoData)
      PER_TICKER_RETRIES).sleeps.length := by decide
  refine ⟨h, ?_⟩
  rw [List.getD_eq_getElem _ _ h]
  exact spec_C8 "T" (fun _ => respNoData) PER_TICKER_RETRIES 1 h

/-- C2 (amended): a successful return of the single-symbol fetcher is a
non-empty series labeled with the ticker, sorted non-decreasingly by date
and free of null values; the code sorts but never de-duplicates, so dates
are guaranteed non-decreasing, not strictly increasing. -/
theorem spec_C2 (ticker : String) (respond : Nat → Response) (n : Nat)
    (s : PriceSeries)
    (h : (download_stooq_close_one ticker respond n).result = .ok s) :
    s.entries.Pairwise (fun a b => a.1 ≤ b.1) ∧
    (∀ p ∈ s.entries, isNullCell p.2 = false) ∧
    s.entries ≠ [] ∧ s.name = ticker := by
  obtain ⟨h1, h2, h3, h4⟩ := download_ok_spec h
  exact ⟨h3, h4, h2, h1⟩

theorem spec_C2_witness :
    (download_stooq_close_one "X" (fun _ => respGood)
        PER_TICKER_RETRIES).result = .ok sGood ∧
    (sGood.entries.Pairwise (fun a b => a.1 ≤ b.1) ∧
      (∀ p ∈ sGood.entries, isNullCell p.2 = false) ∧
      sGood.entries ≠ [] ∧ sGood.name = "X") :=
  ⟨by decide,
    spec_C2 "X" (fun _ => respGood) PER_TICKER_RETRIES sGood (by decide)⟩

/-- C2 (counterexample): a response whose two rows share one date is
accepted, and the returned series has a duplicated, non-strictly-increasing
date key — refuting "strictly increasing and free of duplicate dates". -/
theorem spec_C2_counterexample :
    (download_stooq_close_one "X" (fun _ => rdup)
        PER_TICKER_RETRIES).result.isOk = true ∧
    strictlyIncB (getSeries (download_stooq_close_one "X" (fun _ => rdup)
        PER_TICKER_RETRIES).result).entries = false ∧
    (getSeries (download_stooq_close_one "X" (fun _ => rdup)
        PER_TICKER_RETRIES).result).entries.map Prod.fst
      = [20200102, 20200102] := by
  refine ⟨by decide, by decide, by decide⟩

/-- C4 (amended): for a body whose head is not "no data", the
classification-stage transient error of line 96 is raised exactly when the
HTTP status lies in {429, 500, 502, 503, 504}, or the head is HTML-ish or
mentions "too many requests", or the head is not recognizable CSV.  (The
original "exactly when" fails for the whole attempt: later stages — empty
parse, missing columns, empty close series — also raise and retry.) -/
theorem spec_C4 (ticker : String) (r : Response)
    (h : startsWithChars noDataChars (headOf r) = false) :
    isClassificationError (attemptOne ticker r) = true ↔
      ([429, 500, 502, 503, 504].contains r.status
        || is_htmlish (headOf r) || is_not_csv (headOf r)) = true := by
  rw [attemptOne_classification h, transientCond]

theorem spec_C4_witness :
    startsWithChars noDataChars (headOf ⟨503, "", "oops"⟩) = false ∧
    (isClassificationError (attemptOne "X" ⟨503, "", "oops"⟩) = true ↔
      ([429, 500, 502, 503, 504].contains (Response.mk 503 "" "oops").status
        || is_htmlish (headOf ⟨503, "", "oops"⟩)
        || is_not_csv (headOf ⟨503, "", "oops"⟩)) = true) :=
  ⟨by decide, spec_C4 "X" ⟨503, "", "oops"⟩ (by decide)⟩

/-- C4 (counterexample): a header-only CSV body satisfies none of the
listed transient conditions (and is not "no data"), yet the attempt still
raises and proceeds to backoff/retry — so the listed conditions do not
characterize "raises and retries" exactly. -/
theorem spec_C4_counterexample :
    startsWithChars noDataChars (headOf rEmptyCsv) = false ∧
    (attemptOne "X" rEmptyCsv).isOk = false ∧
    ([429, 500, 502, 503, 504].contains rEmptyCsv.status
      || is_htmlish (headOf rEmptyCsv) || is_not_csv (headOf rEmptyCsv)) = false ∧
    attemptOne "X" rEmptyCsv = .error "empty or missing columns" := by
  refine ⟨by decide, by decide, by decide, by decide⟩

/-- C9: the two symbol-encoding functions are deterministic (equal inputs
give equal outputs) and total — they are plain functions on all strings,
including the empty string, with no failure outcome. -/
theorem spec_C9 (s₁ s₂ : String) (h : s₁ = s₂) :
    normalize_symbol_for_yahoo s₁ = normalize_symbol_for_yahoo s₂ ∧
    to_stooq_symbol s₁ = to_stooq_symbol s₂ := by
  subst h
  exact ⟨rfl, rfl⟩

theorem spec_C9_witness :
    to_stooq_symbol "" = ".us" ∧
    normalize_symbol_for_yahoo " BRK.B " = "BRK-B" ∧
    to_stooq_symbol " BRK.B " = "brk.b.us" ∧
    (normalize_symbol_for_yahoo "" = normalize_symbol_for_yahoo "" ∧
      to_stooq_symbol "" = to_stooq_symbol "") :=
  ⟨by decide, by decide, by decide, spec_C9 "" "" rfl⟩

/-- C5: any symbol whose fetch fails (for any reason, including exhausted
retries) is recorded in the failures map under its own key with the
error's message, and the batch continues: every other symbol that fetches
successfully still appears among the result table's columns.  No failure
escalates past the orchestrator. -/
theorem spec_C5 (respond : String → Nat → Response) (tickers : List String)
    (t e : String) (ht : t ∈ tickers)
    (he : fetchOne respond t = .error e) :
    lookupKey (download_stooq_prices respond tickers).2 t = some e ∧
    (∀ t' s, t' ∈ tickers → fetchOne respond t' = .ok s →
      t' ∈ (download_stooq_prices respond tickers).1.map (fun s => s.name)) := by
  constructor
  · rw [download_stooq_prices]
    exact stooqLoop_failure_lookup respond he tickers [] [] (Or.inl ht)
  · intro t' s ht' hs
    rw [download_stooq_prices]
    apply mem_names_postProcess
    rw [stooqLoop_fst respond tickers [] [], List.nil_append, successNames]
    rw [List.mem_filter]
    exact ⟨ht', by rw [hs]; rfl⟩

theorem spec_C5_witness :
    ("B" ∈ (["B", "A"] : List String)) ∧
    fetchOne respondMixed "B" = .error ("B" ++ ": " ++ "no data") ∧
    (lookupKey (download_stooq_prices respondMixed ["B", "A"]).2 "B"
        = some ("B" ++ ": " ++ "no data") ∧
      (∀ t' s, t' ∈ (["B", "A"] : List String) →
        fetchOne respondMixed t' = .ok s →
        t' ∈ (download_stooq_prices respondMixed ["B", "A"]).1.map
          (fun s => s.name))) :=
  ⟨by decide, by decide,
    spec_C5 respondMixed ["B", "A"] "B" ("B" ++ ": " ++ "no data")
      (by decide) (by decide)⟩

/-- C6: on a de-duplicated symbol list, the result table's columns are
exactly the successfully fetched symbols and the failures map's keys
exactly the failed ones, in input order; the two sets are disjoint, cover
every requested symbol, and their sizes sum to the number requested. -/
theorem spec_C6 (respond : String → Nat → Response) (tickers : List String)
    (hnd : tickers.Nodup) :
    (download_stooq_prices respond tickers).1.map (fun s => s.name)
        = tickers.filter (fun t => (fetchOne respond t).isOk) ∧
    (download_stooq_prices respond tickers).2.map (fun p => p.1)
        = tickers.filter (fun t => !(fetchOne respond t).isOk) ∧
    (∀ t, ¬(t ∈ (download_stooq_prices respond tickers).1.map (fun s => s.name) ∧
        t ∈ (download_stooq_prices respond tickers).2.map (fun p => p.1))) ∧
    (∀ t ∈ tickers,
      t ∈ (download_stooq_prices respond tickers).1.map (fun s => s.name) ∨
      t ∈ (download_stooq_prices respond tickers).2.map (fun p => p.1)) ∧
    ((download_stooq_prices respond tickers).1.map (fun s => s.name)).length
        + ((download_stooq_prices respond tickers).2.map (fun p => p.1)).length
        = tickers.length ∧
    (∀ (genAt startS endS : String) (m : Meta),
      (fetch_and_save_data respond tickers genAt startS endS).1 = .ok m →
      m.tickers_ok + m.failures = m.tickers_requested) := by
  have hcols : (download_stooq_prices respond tickers).1.map (fun s => s.name)
      = tickers.filter (fun t => (fetchOne respond t).isOk) := by
    rw [download_stooq_prices]
    have hloop := stooqLoop_fst respond tickers [] []
    rw [hloop, List.nil_append]
    rw [postProcess_eq_self (by rw [successNames]; exact hnd.filter _)]
    exact successNames respond tickers
  have hkeys : (download_stooq_prices respond tickers).2.map (fun p => p.1)
      = tickers.filter (fun t => !(fetchOne respond t).isOk) := by
    rw [download_stooq_prices]
    rw [stooqLoop_snd_nodup respond tickers [] [] hnd (by intro p hp; cases hp),
      List.nil_append]
    exact failureKeys respond tickers
  have hlen : ((download_stooq_prices respond tickers).1.map
        (fun s => s.name)).length
      + ((download_stooq_prices respond tickers).2.map (fun p => p.1)).length
      = tickers.length := by
    rw [hcols, hkeys]
    exact length_filter_partition _ tickers
  refine ⟨hcols, hkeys, ?_, ?_, hlen, ?_⟩
  · intro t ⟨h1, h2⟩
    rw [hcols, List.mem_filter] at h1
    rw [hkeys, List.mem_filter] at h2
    rw [h1.2] at h2
    exact absurd h2.2 (by simp)
  · intro t ht
    cases hO : (fetchOne respond t).isOk with
    | true => exact Or.inl (by rw [hcols, List.mem_filter]; exact ⟨ht, hO⟩)
    | false =>
      exact Or.inr (by rw [hkeys, List.mem_filter]; exact ⟨ht, by rw [hO]; rfl⟩)
  · intro genAt startS endS m hm
    rw [fetch_and_save_data] at hm
    simp only [dedupFirst_eq_self hnd] at hm
    rw [List.length_map, List.length_map] at hlen
    split at hm
    · cases hm
    · obtain rfl : Meta.mk genAt LOOKBACK_YEARS startS endS tickers.length
          (download_stooq_prices respond tickers).1.length
          (download_stooq_prices respond tickers).2.length
          (maxDateOf (download_stooq_prices respond tickers).1) = m := by
        injection hm
      exact hlen

theorem spec_C6_witness :
    (["A", "B"] : List String).Nodup ∧
    ((download_stooq_prices respondMixed ["A", "B"]).1.map (fun s => s.name)
        = (["A", "B"] : List String).filter
            (fun t => (fetchOne respondMixed t).isOk) ∧
      (download_stooq_prices respondMixed ["A", "B"]).2.map (fun p => p.1)
        = (["A", "B"] : List String).filter
            (fun t => !(fetchOne respondMixed t).isOk) ∧
      (∀ t, ¬(t ∈ (download_stooq_prices respondMixed ["A", "B"]).1.map
            (fun s => s.name) ∧
          t ∈ (download_stooq_prices respondMixed ["A", "B"]).2.map
            (fun p => p.1))) ∧
      (∀ t ∈ (["A", "B"] : List String),
        t ∈ (download_stooq_prices respondMixed ["A", "B"]).1.map
          (fun s => s.name) ∨
        t ∈ (download_stooq_prices respondMixed ["A", "B"]).2.map
          (fun p => p.1)) ∧
      ((download_stooq_prices respondMixed ["A", "B"]).1.map
          (fun s => s.name)).length
        + ((download_stooq_prices respondMixed ["A", "B"]).2.map
            (fun p => p.1)).length
        = (["A", "B"] : List String).length ∧
      (∀ (genAt startS endS : String) (m : Meta),
        (fetch_and_save_data respondMixed ["A", "B"] genAt startS endS).1
          = .ok m →
        m.tickers_ok + m.failures = m.tickers_requested)) :=
  ⟨by decide, spec_C6 respondMixed ["A", "B"] (by decide)⟩

/-- C3: the run fails fatally exactly when no requested symbol succeeds
(the merged table is empty); in that case no output artifact is written,
while any run with at least one success returns normally and writes both
the price table and the metadata (and the failure log when non-empty). -/
theorem spec_C3 (respond : String → Nat → Response) (raw : List String)
    (genAt startS endS : String) :
    ((∃ msg, (fetch_and_save_data respond raw genAt startS endS).1
        = .error msg) ↔
      ∀ t ∈ dedupFirst raw, (fetchOne respond t).isOk = false) ∧
    ((∃ msg, (fetch_and_save_data respond raw genAt startS endS).1
        = .error msg) →
      (fetch_and_save_data respond raw genAt startS endS).2 = []) ∧
    (∀ m, (fetch_and_save_data respond raw genAt startS endS).1 = .ok m →
      OUT_PARQUET ∈ (fetch_and_save_data respond raw genAt startS endS).2 ∧
      OUT_META ∈ (fetch_and_save_data respond raw genAt startS endS).2) := by
  simp only [fetch_and_save_data]
  cases hE : emptyTable (download_stooq_prices respond (dedupFirst raw)).1 with
  | true =>
    simp only [if_pos rfl]
    refine ⟨?_, ?_, ?_⟩
    · constructor
      · intro _
        exact (download_prices_empty_iff respond (dedupFirst raw)).mp hE
      · intro _
        exact ⟨"No data downloaded from Stooq.", rfl⟩
    · intro _
      rfl
    · intro m hm
      cases hm
  | false =>
    simp only [Bool.false_eq_true, if_false]
    refine ⟨?_, ?_, ?_⟩
    · constructor
      · intro ⟨msg, hmsg⟩
        cases hmsg
      · intro hall
        rw [(download_prices_empty_iff respond (dedupFirst raw)).mpr hall] at hE
        cases hE
    · intro ⟨msg, hmsg⟩
      cases hmsg
    · intro m _
      constructor
      · exact List.mem_append.mpr (Or.inl (List.mem_append.mpr
          (Or.inl (List.mem_singleton.mpr rfl))))
      · exact List.mem_append.mpr (Or.inr (List.mem_singleton.mpr rfl))

theorem spec_C3_witness :
    ((∃ msg, (fetch_and_save_data respondMixed ["A", "B"] "g" "s" "e").1
        = .error msg) ↔
      ∀ t ∈ dedupFirst ["A", "B"], (fetchOne respondMixed t).isOk = false) ∧
    ((∃ msg, (fetch_and_save_data respondMixed ["A", "B"] "g" "s" "e").1
        = .error msg) →
      (fetch_and_save_data respondMixed ["A", "B"] "g" "s" "e").2 = []) ∧
    (∀ m, (fetch_and_save_data respondMixed ["A", "B"] "g" "s" "e").1 = .ok m →
      OUT_PARQUET ∈ (fetch_and_save_data respondMixed ["A", "B"] "g" "s" "e").2 ∧
      OUT_META ∈ (fetch_and_save_data respondMixed ["A", "B"] "g" "s" "e").2) :=
  spec_C3 respondMixed ["A", "B"] "g" "s" "e"
